import Mathlib

/-!
Shallow embedding of the `votopreferencial/zk` repository: the Hyperledger
Fabric chaincode (`src/unnamed/part_001`, a Go smart contract), the two
Solidity contracts (`src/stvVote.sol`, `src/STVContract.sol`), and the Go
flat-weighted tally (`src/tallying.go`).  Loops of the source become
structural recursion over lists; the two unguarded `while` loops of the
vote-counting functions take explicit fuel (`none` = fuel exhausted, which
is how we observe that the source loop itself never exits); Go map state
becomes a total function with the zero value as default; runtime panics
(out-of-range indexing) and Solidity reverts become `Except.error`.
-/

namespace Chaincode

/-- Candidate record of the Go chaincode (`src/unnamed/part_001`). -/
structure Candidate where
  Name : String
  VoteCount : Nat
deriving Repr, DecidableEq

/-- Ballot record of the Go chaincode: voter identifier, ranked candidate
indices, and the voted flag. -/
structure Ballot where
  Voter : String
  Preferences : List Nat
  Voted : Bool
deriving Repr, DecidableEq

/-- Election record stored by the chaincode under the `election` key. -/
structure Election where
  Candidates : List Candidate
  Seats : Nat
  TotalVotes : Nat
  Ballots : List Ballot
deriving Repr, DecidableEq

/-- The duplicate-voter scan at the top of `CastVote`: the Go `for` loop
returns at the first stored ballot whose `Voter` equals the submitter. -/
def hasVoted : List Ballot → String → Bool
  | [], _ => false
  | b :: bs, v => if b.Voter = v then true else hasVoted bs v

/-- `CastVote` of the Go chaincode: reject a voter that already appears in
`Ballots`; otherwise append one ballot and increment `TotalVotes`.  The
ledger read/write (`GetState`/`PutState`) is explicit state passing here:
an `Except.error` result means the transaction does not commit, so the
stored election is unchanged. -/
def CastVote (election : Election) (voter : String) (preferences : List Nat) :
    Except String Election :=
  if hasVoted election.Ballots voter then
    Except.error "voter has already voted"
  else
    Except.ok { election with
      Ballots := election.Ballots ++
        [{ Voter := voter, Preferences := preferences, Voted := true }],
      TotalVotes := election.TotalVotes + 1 }

/-- The quota expression of `CountVotes` in the Go chaincode:
`quota := election.TotalVotes / (election.Seats + 1)` — integer division,
with no `+ 1` term. -/
def quota (totalVotes seats : Nat) : Nat := totalVotes / (seats + 1)

/-- One iteration of the counting loop of `CountVotes`:
`firstPref := ballot.Preferences[0]` followed by
`election.Candidates[firstPref].VoteCount++`.  Indexing an empty
preference list or an out-of-range candidate is a Go runtime panic,
modelled as an error. -/
def addFirstPref (cands : List Candidate) (b : Ballot) :
    Except String (List Candidate) :=
  match b.Preferences with
  | [] => Except.error "index out of range"
  | p :: _ =>
    if h : p < cands.length then
      Except.ok (cands.set p
        { cands.get ⟨p, h⟩ with VoteCount := (cands.get ⟨p, h⟩).VoteCount + 1 })
    else Except.error "index out of range"

/-- The per-pass counting loop of `CountVotes` over all stored ballots. -/
def countBallots (ballots : List Ballot) (cands : List Candidate) :
    Except String (List Candidate) :=
  match ballots with
  | [] => Except.ok cands
  | b :: bs =>
    match addFirstPref cands b with
    | Except.error e => Except.error e
    | Except.ok cands' => countBallots bs cands'

/-- The seat-allocation loop of `CountVotes`: every candidate whose
`VoteCount` is at least the quota decrements `seatsRemaining` (a Go `int`,
so it may go negative) and has its count reset to zero. -/
def electPhase (q : Nat) : List Candidate → Int → List Candidate × Int
  | [], s => ([], s)
  | c :: cs, s =>
    if q ≤ c.VoteCount then
      let r := electPhase q cs (s - 1)
      ({ c with VoteCount := 0 } :: r.1, r.2)
    else
      let r := electPhase q cs s
      (c :: r.1, r.2)

/-- The `for seatsRemaining := election.Seats; seatsRemaining > 0;` loop of
`CountVotes`, with explicit fuel: the source loop has no termination
guarantee of its own, and `none` records that the given fuel did not reach
the loop exit. -/
def countLoop (q : Nat) (ballots : List Ballot) :
    Nat → List Candidate → Int → Option (Except String (List Candidate × Int))
  | 0, _, _ => none
  | fuel + 1, cands, s =>
    if 0 < s then
      match countBallots ballots cands with
      | Except.error e => some (Except.error e)
      | Except.ok cands' =>
        let r := electPhase q cands' s
        countLoop q ballots fuel r.1 r.2
    else
      some (Except.ok (cands, s))

/-- The counting loop of `CountVotes` run from the stored election, returning
the final candidate list together with the final value of the local
`seatsRemaining` counter. -/
def runCount (fuel : Nat) (e : Election) :
    Option (Except String (List Candidate × Int)) :=
  countLoop (quota e.TotalVotes e.Seats) e.Ballots fuel e.Candidates (e.Seats : Int)

/-- `CountVotes` of the Go chaincode: the loop result marshalled back into
the stored election.  Only `Candidates` is updated; `Seats`, `TotalVotes`
and `Ballots` are written back exactly as they were read. -/
def CountVotes (fuel : Nat) (e : Election) : Option (Except String Election) :=
  match runCount fuel e with
  | none => none
  | some (Except.error err) => some (Except.error err)
  | some (Except.ok r) => some (Except.ok { e with Candidates := r.1 })

/-- Sum of all candidates' vote counts. -/
def sumVotes (cands : List Candidate) : Nat :=
  (cands.map Candidate.VoteCount).sum

end Chaincode

namespace StvVote

/-- Candidate struct of `src/stvVote.sol`. -/
structure Candidate where
  name : String
  voteCount : Nat
deriving Repr, DecidableEq

/-- Ballot struct of `src/stvVote.sol`; addresses are modelled as `Nat`,
with 0 playing the role of `address(0)`. -/
structure Ballot where
  voter : Nat
  preferences : List Nat
  voted : Bool
deriving Repr, DecidableEq

/-- Contract storage of `STVVote`.  The `ballots` mapping is a total
function whose default value is the all-zero struct, as in Solidity. -/
structure State where
  owner : Nat
  candidates : List Candidate
  ballots : Nat → Ballot
  totalVotes : Nat
  seats : Nat

/-- The quota expression of `countVotes` in `stvVote.sol`:
`uint quota = totalVotes / (seats + 1) + 1` (integer division). -/
def quota (totalVotes seats : Nat) : Nat := totalVotes / (seats + 1) + 1

/-- One iteration of the inner counting loop of `countVotes`:
`voter = ballots[msg.sender].voter; firstPref = ballots[voter].preferences[0];
candidates[firstPref].voteCount++`.  Out-of-range indexing is a Solidity
panic (revert), modelled as an error.  (The `remainingSeats` local of the
source is initialized and never read, so it does not appear here.) -/
def bumpFirstPref (sender : Nat) (s : State) : Except String State :=
  let voter := (s.ballots sender).voter
  match (s.ballots voter).preferences with
  | [] => Except.error "array out of bounds"
  | p :: _ =>
    if h : p < s.candidates.length then
      let c := s.candidates.get ⟨p, h⟩
      Except.ok { s with candidates := s.candidates.set p { c with voteCount := c.voteCount + 1 } }
    else Except.error "array out of bounds"

/-- The inner `for (uint i = 0; i < totalVotes; i++)` loop of `countVotes`:
`totalVotes` identical iterations of `bumpFirstPref`. -/
def countPrefs (sender : Nat) : Nat → State → Except String State
  | 0, s => Except.ok s
  | n + 1, s =>
    match bumpFirstPref sender s with
    | Except.error e => Except.error e
    | Except.ok s' => countPrefs sender n s'

/-- The seat-allocation loop of `countVotes`: each candidate at or above
quota decrements `seats` (a `uint`: decrementing 0 is an arithmetic
underflow revert) and has its count reset to zero. -/
def electPass (q : Nat) : List Candidate → Nat → Except String (List Candidate × Nat)
  | [], seats => Except.ok ([], seats)
  | c :: cs, seats =>
    if q ≤ c.voteCount then
      match seats with
      | 0 => Except.error "arithmetic underflow"
      | seats' + 1 =>
        match electPass q cs seats' with
        | Except.error e => Except.error e
        | Except.ok r => Except.ok ({ c with voteCount := 0 } :: r.1, r.2)
    else
      match electPass q cs seats with
      | Except.error e => Except.error e
      | Except.ok r => Except.ok (c :: r.1, r.2)

/-- The `while (seats > 0)` loop of `countVotes`, with explicit fuel:
`none` records that the given fuel did not reach the loop exit. -/
def countLoop (sender : Nat) (q : Nat) : Nat → State → Option (Except String State)
  | 0, _ => none
  | fuel + 1, s =>
    if 0 < s.seats then
      match countPrefs sender s.totalVotes s with
      | Except.error e => some (Except.error e)
      | Except.ok s1 =>
        match electPass q s1.candidates s1.seats with
        | Except.error e => some (Except.error e)
        | Except.ok r => countLoop sender q fuel { s1 with candidates := r.1, seats := r.2 }
    else some (Except.ok s)

/-- `countVotes` of `stvVote.sol`, as called by `sender` (the owner). -/
def countVotes (sender : Nat) (fuel : Nat) (s : State) : Option (Except String State) :=
  countLoop sender (quota s.totalVotes s.seats) fuel s

/-- A concrete deployed state: one candidate, one seat, and no votes cast
(`totalVotes = 0`, every ballot slot still the default struct). -/
def stuckState : State :=
  { owner := 0
    candidates := [{ name := "A", voteCount := 0 }]
    ballots := fun _ => { voter := 0, preferences := [], voted := false }
    totalVotes := 0
    seats := 1 }

end StvVote

namespace STVContract

/-- Voter struct of `src/STVContract.sol`. -/
structure Voter where
  voted : Bool
  preferences : List Nat
deriving Repr, DecidableEq

/-- `vote` of `STVContract.sol`: the `hasNotVoted` modifier runs first,
then `require(preferences.length == candidates.length)`; on success the
sender's voter record is written and `totalVotes` incremented.  `voters` is
the contract mapping (total function, default all-zero struct) and
`numCandidates` is `candidates.length`. -/
def vote (voters : String → Voter) (totalVotes : Nat) (sender : String)
    (numCandidates : Nat) (preferences : List Nat) :
    Except String ((String → Voter) × Nat) :=
  if (voters sender).voted then Except.error "You have already voted"
  else if preferences.length = numCandidates then
    Except.ok
      (fun a => if a = sender then { voted := true, preferences := preferences }
                else voters a,
       totalVotes + 1)
  else Except.error "Invalid vote format"

/-- The rejection predicate that the specification ascribes to ballot
validation (written from the spec's words, for comparison with `vote`):
reject exactly when the list is empty, longer than the candidate count,
mentions an unknown candidate, or repeats a candidate. -/
def specRejects (numCandidates : Nat) (preferences : List Nat) : Prop :=
  preferences = [] ∨ numCandidates < preferences.length ∨
    (∃ p ∈ preferences, numCandidates ≤ p) ∨ ¬ preferences.Nodup

instance (n : Nat) (l : List Nat) : Decidable (specRejects n l) := by
  unfold specRejects
  infer_instance

end STVContract

namespace Tallying

/-- Result record of `src/tallying.go` (`Candidata`): display name and
weighted vote total (Go `int`). -/
structure Candidata where
  Nome : String
  Votos : Int
deriving Repr, DecidableEq

/-- `contains` of `tallying.go`: linear scan of the valid-candidate list. -/
def contains (candidatasValidas : List String) (candidata : String) : Bool :=
  candidatasValidas.any (fun c => c = candidata)

/-- One Go map write `resultados[candidata] = v`, the map being modelled as
a total function with default 0. -/
def atualizar (r : String → Int) (k : String) (v : Int) : String → Int :=
  fun x => if x = k then v else r x

/-- The inner loop of `calcularTotais` over one ballot, carrying the running
rank index `i`: `if i < len(pesos) && contains(candidatasValidas, candidata)
{ resultados[candidata] += pesos[i] }`. -/
def aplicarVoto (candidatasValidas : List String) (pesos : List Int) :
    Nat → List String → (String → Int) → (String → Int)
  | _, [], r => r
  | i, candidata :: resto, r =>
    aplicarVoto candidatasValidas pesos (i + 1) resto
      (if i < pesos.length ∧ contains candidatasValidas candidata then
        atualizar r candidata (r candidata + pesos.getD i 0)
      else r)

/-- The `resultados` map of `calcularTotais` after all ballots: initialized
to 0 on every valid candidate (the Go zero value also reads as 0), then the
weighted updates folded over the ballots. -/
def calcularResultados (votos : List (List String))
    (candidatasValidas : List String) (pesos : List Int) : String → Int :=
  votos.foldl (fun r voto => aplicarVoto candidatasValidas pesos 0 voto r)
    (fun _ => 0)

/-- The ordering used by the `sort.Slice` call of `calcularTotais`, whose
`less` function is `Votos[i] > Votos[j]`: the sorted output is exactly
non-increasing in `Votos`. -/
def porVotos (a b : Candidata) : Prop := b.Votos ≤ a.Votos

instance : DecidableRel porVotos := fun a b => Int.decLe b.Votos a.Votos

instance : IsTotal Candidata porVotos :=
  ⟨fun a b => (Int.le_total a.Votos b.Votos).symm⟩

instance : IsTrans Candidata porVotos :=
  ⟨fun _ _ _ hab hbc => le_trans hbc hab⟩

/-- `calcularTotais` of `tallying.go`.  Go map iteration order is
deliberately unspecified, so the order in which the key-value pairs enter
`listaResultados` is an explicit parameter `ordem` (any enumeration of the
map's keys); `sort.Slice` guarantees only consistency with its `less`
function, rendered here by insertion sort on `porVotos`, one admissible
behaviour of the unstable sort. -/
def calcularTotais (votos : List (List String)) (candidatasValidas : List String)
    (pesos : List Int) (ordem : List String) : List Candidata :=
  List.insertionSort porVotos
    (ordem.map (fun nome =>
      { Nome := nome, Votos := calcularResultados votos candidatasValidas pesos nome }))

/-- Per-ballot contribution that the specification ascribes to a candidate
(written from the spec's words, for comparison with `calcularResultados`):
the preference at rank `i` (0-indexed) contributes `rankWeights[i]`, and a
rank at or past the end of the weight list contributes 0. -/
def contribuicao (pesos : List Int) (voto : List String) (c : String) : Int :=
  (voto.enum.map (fun p => if p.2 = c then pesos.getD p.1 0 else 0)).sum

/-- The result ordering that the specification ascribes to the flat tally
(written from the spec's words): strictly descending totals, ties in
ascending identifier order. -/
def ordemDaSpec (l : List Candidata) : Prop :=
  l.Pairwise (fun a b => b.Votos < a.Votos ∨ (a.Votos = b.Votos ∧ a.Nome < b.Nome))

end Tallying

namespace Chaincode

/-- A deployed election with two candidates, one seat, and no votes cast. -/
def zeroVoteElection : Election :=
  { Candidates := [{ Name := "A", VoteCount := 0 }, { Name := "B", VoteCount := 0 }]
    Seats := 1
    TotalVotes := 0
    Ballots := [] }

/-- Two candidates, one seat, four ballots all ranking candidate 0 first. -/
def conservElection : Election :=
  { Candidates := [{ Name := "A", VoteCount := 0 }, { Name := "B", VoteCount := 0 }]
    Seats := 1
    TotalVotes := 4
    Ballots := [⟨"v1", [0, 1], true⟩, ⟨"v2", [0, 1], true⟩,
                ⟨"v3", [0, 1], true⟩, ⟨"v4", [0, 1], true⟩] }

/-- Two candidates, one seat, four ballots split evenly between the two. -/
def splitElection : Election :=
  { Candidates := [{ Name := "A", VoteCount := 0 }, { Name := "B", VoteCount := 0 }]
    Seats := 1
    TotalVotes := 4
    Ballots := [⟨"v1", [0, 1], true⟩, ⟨"v2", [0, 1], true⟩,
                ⟨"v3", [1, 0], true⟩, ⟨"v4", [1, 0], true⟩] }

/-- Three candidates, two seats, four identical ballots ranking 0, then 1,
then 2: the setting in which an STV surplus transfer would have to move
candidate 0's surplus to candidate 1. -/
def cascadeElection : Election :=
  { Candidates := [{ Name := "A", VoteCount := 0 }, { Name := "B", VoteCount := 0 },
                   { Name := "C", VoteCount := 0 }]
    Seats := 2
    TotalVotes := 4
    Ballots := [⟨"v1", [0, 1, 2], true⟩, ⟨"v2", [0, 1, 2], true⟩,
                ⟨"v3", [0, 1, 2], true⟩, ⟨"v4", [0, 1, 2], true⟩] }

/-- The election that `CountVotes` stores back for `cascadeElection`. -/
def cascadeResult : Election :=
  { cascadeElection with
    Candidates := [{ Name := "A", VoteCount := 0 }, { Name := "B", VoteCount := 0 },
                   { Name := "C", VoteCount := 0 }] }

end Chaincode

namespace Chaincode

theorem hasVoted_iff (bs : List Ballot) (v : String) :
    hasVoted bs v = true ↔ ∃ b ∈ bs, b.Voter = v := by
  induction bs with
  | nil => simp [hasVoted]
  | cons b bs ih =>
    by_cases h : b.Voter = v
    · simp [hasVoted, h]
    · simp [hasVoted, h, ih]

theorem electPhase_fst (q : Nat) : ∀ (cands : List Candidate) (s : Int),
    (electPhase q cands s).1 =
      cands.map fun c => if q ≤ c.VoteCount then { c with VoteCount := 0 } else c := by
  intro cands
  induction cands with
  | nil => intro s; rfl
  | cons c cs ih =>
    intro s
    by_cases h : q ≤ c.VoteCount
    · simp only [electPhase, if_pos h, List.map_cons, ih]
    · simp only [electPhase, if_neg h, List.map_cons, ih]

theorem electPhase_snd (q : Nat) : ∀ (cands : List Candidate) (s : Int),
    (electPhase q cands s).2 = s - (cands.countP fun c => decide (q ≤ c.VoteCount) : Int) := by
  intro cands
  induction cands with
  | nil => intro s; simp [electPhase]
  | cons c cs ih =>
    intro s
    by_cases h : q ≤ c.VoteCount
    · rw [List.countP_cons]
      simp only [electPhase, if_pos h, ih, decide_eq_true_eq, h, if_true]
      push_cast
      ring
    · rw [List.countP_cons]
      simp only [electPhase, if_neg h, ih, decide_eq_true_eq, h, if_false]
      push_cast
      ring

theorem electPhase_eq (q : Nat) (cands : List Candidate) (s : Int) :
    electPhase q cands s =
      (cands.map fun c => if q ≤ c.VoteCount then { c with VoteCount := 0 } else c,
        s - (cands.countP fun c => decide (q ≤ c.VoteCount) : Int)) :=
  Prod.ext (electPhase_fst q cands s) (electPhase_snd q cands s)

theorem sumVotes_set_inc : ∀ (cands : List Candidate) (p : Nat) (h : p < cands.length),
    sumVotes (cands.set p
      { cands.get ⟨p, h⟩ with VoteCount := (cands.get ⟨p, h⟩).VoteCount + 1 }) =
      sumVotes cands + 1 := by
  intro cands
  induction cands with
  | nil => intro p h; simp at h
  | cons c cs ih =>
    intro p h
    cases p with
    | zero => simp [sumVotes, List.set]; omega
    | succ n =>
      have hn : n < cs.length := by simpa using h
      simp only [List.set, List.get, sumVotes, List.map_cons, List.sum_cons]
      have := ih n hn
      simp only [sumVotes] at this
      omega

theorem addFirstPref_sum {cands cands' : List Candidate} {b : Ballot}
    (h : addFirstPref cands b = Except.ok cands') :
    sumVotes cands' = sumVotes cands + 1 := by
  unfold addFirstPref at h
  split at h
  · cases h
  · split at h
    · rename_i hl
      injection h with h
      rw [← h]
      exact sumVotes_set_inc cands _ hl
    · cases h

theorem CountVotes_preserves {fuel : Nat} {e e' : Election}
    (h : CountVotes fuel e = some (Except.ok e')) :
    e'.Ballots = e.Ballots ∧ e'.Seats = e.Seats ∧ e'.TotalVotes = e.TotalVotes := by
  unfold CountVotes at h
  cases hr : runCount fuel e with
  | none => rw [hr] at h; cases h
  | some r =>
    rw [hr] at h
    cases r with
    | error err => cases h
    | ok p =>
      injection h with h
      injection h with h
      rw [← h]
      exact ⟨rfl, rfl, rfl⟩

end Chaincode

namespace Tallying

theorem aplicarVoto_eval (validas : List String) (pesos : List Int) (c : String)
    (hc : contains validas c = true) :
    ∀ (voto : List String) (i : Nat) (r : String → Int),
      aplicarVoto validas pesos i voto r c =
        r c + ((List.enumFrom i voto).map fun p => if p.2 = c then pesos.getD p.1 0 else 0).sum := by
  intro voto
  induction voto with
  | nil => intro i r; simp [aplicarVoto]
  | cons x xs ih =>
    intro i r
    have hstep : (if i < pesos.length ∧ contains validas x then
        atualizar r x (r x + pesos.getD i 0) else r) c
        = r c + (if x = c then pesos.getD i 0 else 0) := by
      by_cases hx : x = c
      · subst hx
        by_cases hlen : i < pesos.length
        · simp [hlen, hc, atualizar]
        · have hd : pesos[i]? = none := List.getElem?_eq_none (Nat.le_of_not_lt hlen)
          simp [hlen, hd]
      · by_cases hg : i < pesos.length ∧ contains validas x
        · simp [hg, atualizar, hx]
          intro hcx
          exact absurd hcx.symm hx
        · simp [hg, hx]
    simp only [aplicarVoto, List.enumFrom_cons, List.map_cons, List.sum_cons]
    rw [ih (i + 1), hstep]
    ring

theorem foldl_aplicarVoto (validas : List String) (pesos : List Int) (c : String)
    (hc : contains validas c = true) :
    ∀ (votos : List (List String)) (r : String → Int),
      (votos.foldl (fun r voto => aplicarVoto validas pesos 0 voto r) r) c =
        r c + (votos.map fun voto => contribuicao pesos voto c).sum := by
  intro votos
  induction votos with
  | nil => intro r; simp
  | cons v vs ih =>
    intro r
    simp only [List.foldl_cons, List.map_cons, List.sum_cons]
    rw [ih, aplicarVoto_eval validas pesos c hc]
    have hv : contribuicao pesos v c =
        ((List.enumFrom 0 v).map fun p => if p.2 = c then pesos.getD p.1 0 else 0).sum := rfl
    rw [hv]
    ring

end Tallying

/-- C1.  The claim reads the Droop formula `floor(V/(seats+1)) + 1` into both
tally setups.  What holds: `stvVote.sol` computes exactly that, while the Go
chaincode's `CountVotes` computes `floor(V/(seats+1))` with no `+ 1`. -/
theorem quota_formulas_by_implementation (V seats : Nat) (_h : 1 ≤ seats) :
    StvVote.quota V seats = V / (seats + 1) + 1 ∧
    Chaincode.quota V seats = V / (seats + 1) :=
  ⟨rfl, rfl⟩

/-- Witness for C1 at `V = 4`, `seats = 1`. -/
theorem quota_formulas_by_implementation_witness :
    StvVote.quota 4 1 = 4 / (1 + 1) + 1 ∧ Chaincode.quota 4 1 = 4 / (1 + 1) :=
  quota_formulas_by_implementation 4 1 (by decide)

/-- C1 counterexample: at `V = 4`, `seats = 1` the Go chaincode's quota is 2,
not the Droop value `floor(4/2) + 1 = 3`. -/
theorem chaincode_quota_lacks_plus_one :
    Chaincode.quota 4 1 = 2 ∧ 4 / (1 + 1) + 1 = 3 ∧
    Chaincode.quota 4 1 ≠ 4 / (1 + 1) + 1 := by
  decide

/-- C2.  In the flat-weighted tally of `tallying.go`, every roster
candidate's final total is the sum, over all ballots, of `pesos[i]` for each
rank `i` at which the candidate appears, a rank at or past the end of the
weight list contributing 0. -/
theorem calcularResultados_matches_rank_weight_sums (votos : List (List String))
    (candidatasValidas : List String) (pesos : List Int) (c : String)
    (hc : Tallying.contains candidatasValidas c = true) :
    Tallying.calcularResultados votos candidatasValidas pesos c =
      (votos.map fun voto => Tallying.contribuicao pesos voto c).sum := by
  unfold Tallying.calcularResultados
  rw [Tallying.foldl_aplicarVoto candidatasValidas pesos c hc]
  simp

/-- Witness for C2 on a concrete two-ballot tally. -/
theorem calcularResultados_matches_rank_weight_sums_witness :
    Tallying.contains ["A", "B"] "A" = true ∧
    Tallying.calcularResultados [["A", "B"], ["B"]] ["A", "B"] [3, 2] "A" =
      (([["A", "B"], ["B"]] : List (List String)).map
        fun voto => Tallying.contribuicao [3, 2] voto "A").sum :=
  ⟨rfl, calcularResultados_matches_rank_weight_sums [["A", "B"], ["B"]] ["A", "B"] [3, 2] "A" rfl⟩

/-- C3 counterexample: in `cascadeElection` (quota 1), candidate 0 is newly
at quota with total 4 (surplus 3) while a seat remains, yet the stored
ballots after `CountVotes` are identical to the ballots before, and
candidates 1 and 2 end with total 0: no surplus, transfer value, ballot
rescaling or pointer advance exists — candidate 0 simply absorbs both seats
on successive passes. -/
theorem no_surplus_transfer_at_cascade :
    Chaincode.quota Chaincode.cascadeElection.TotalVotes Chaincode.cascadeElection.Seats = 1 ∧
    Chaincode.countBallots Chaincode.cascadeElection.Ballots Chaincode.cascadeElection.Candidates =
      Except.ok [⟨"A", 4⟩, ⟨"B", 0⟩, ⟨"C", 0⟩] ∧
    Chaincode.CountVotes 4 Chaincode.cascadeElection = some (Except.ok Chaincode.cascadeResult) ∧
    Chaincode.cascadeResult.Ballots = Chaincode.cascadeElection.Ballots ∧
    Chaincode.cascadeResult.Candidates = [⟨"A", 0⟩, ⟨"B", 0⟩, ⟨"C", 0⟩] :=
  ⟨rfl, rfl, rfl, rfl, rfl⟩

/-- C3 as amended: when a candidate reaches the quota the Go chaincode only
decrements `seatsRemaining` and resets that candidate's count to zero, and
`CountVotes` never modifies the stored ballots (or the seat count or the
vote total): no surplus, transfer value or ballot rescaling is computed. -/
theorem elect_only_resets_and_ballots_fixed :
    (∀ (q : Nat) (cands : List Chaincode.Candidate) (s : Int),
      Chaincode.electPhase q cands s =
        (cands.map fun c => if q ≤ c.VoteCount then { c with VoteCount := 0 } else c,
          s - (cands.countP fun c => decide (q ≤ c.VoteCount) : Int))) ∧
    (∀ (fuel : Nat) (e e' : Chaincode.Election),
      Chaincode.CountVotes fuel e = some (Except.ok e') →
      e'.Ballots = e.Ballots ∧ e'.Seats = e.Seats ∧ e'.TotalVotes = e.TotalVotes) :=
  ⟨Chaincode.electPhase_eq, fun _ _ _ h => Chaincode.CountVotes_preserves h⟩

/-- Witness for C3's amended statement on `cascadeElection`. -/
theorem elect_only_resets_and_ballots_fixed_witness :
    Chaincode.CountVotes 4 Chaincode.cascadeElection = some (Except.ok Chaincode.cascadeResult) ∧
    (Chaincode.cascadeResult.Ballots = Chaincode.cascadeElection.Ballots ∧
      Chaincode.cascadeResult.Seats = Chaincode.cascadeElection.Seats ∧
      Chaincode.cascadeResult.TotalVotes = Chaincode.cascadeElection.TotalVotes) :=
  ⟨rfl, elect_only_resets_and_ballots_fixed.2 4 Chaincode.cascadeElection Chaincode.cascadeResult rfl⟩

/-- C4.  With one candidate, one seat and zero votes cast, the
`while (seats > 0)` loop of `countVotes` in `stvVote.sol` repeats a body
that leaves the state unchanged (nothing to count, quota 1 never met), so
no amount of fuel reaches the loop exit: `countVotes` never terminates. -/
theorem stvVote_countVotes_never_terminates_on_zero_votes (fuel : Nat) :
    StvVote.countVotes 0 fuel StvVote.stuckState = none := by
  induction fuel with
  | zero => rfl
  | succ n ih => exact ih

/-- C5 counterexample: in `conservElection` (4 ballots of weight 1, quota 2)
the first pass elects candidate 0 and resets its total, so at the very next
round boundary the candidate totals sum to 0 while the original ballot
weights sum to 4 — and no exhausted-ballot residual exists anywhere in the
code to make up the difference. -/
theorem conservation_fails_after_reset :
    Chaincode.runCount 2 Chaincode.conservElection =
      some (Except.ok ([⟨"A", 0⟩, ⟨"B", 0⟩], 0)) ∧
    Chaincode.sumVotes [⟨"A", 0⟩, ⟨"B", 0⟩] = 0 ∧
    Chaincode.conservElection.Ballots.length = 4 ∧
    Chaincode.sumVotes [⟨"A", 0⟩, ⟨"B", 0⟩] ≠ Chaincode.conservElection.Ballots.length :=
  ⟨rfl, rfl, rfl, by decide⟩

/-- C5 as amended: conservation holds only inside the counting phase — one
pass of the ballot loop increases the sum of candidate totals by exactly
the number of ballots (each ballot carries weight 1 and never exhausts);
the election resets then discard elected candidates' totals. -/
theorem countBallots_adds_ballot_count :
    ∀ (ballots : List Chaincode.Ballot) (cands cands' : List Chaincode.Candidate),
      Chaincode.countBallots ballots cands = Except.ok cands' →
      Chaincode.sumVotes cands' = Chaincode.sumVotes cands + ballots.length := by
  intro ballots
  induction ballots with
  | nil =>
    intro cands cands' h
    injection h with h
    rw [← h]
    simp
  | cons b bs ih =>
    intro cands cands' h
    unfold Chaincode.countBallots at h
    cases hb : Chaincode.addFirstPref cands b with
    | error err => rw [hb] at h; cases h
    | ok c1 =>
      rw [hb] at h
      have h1 := ih c1 cands' h
      have h2 := Chaincode.addFirstPref_sum hb
      simp only [List.length_cons]
      omega

/-- Witness for C5's amended statement on `conservElection`'s ballots. -/
theorem countBallots_adds_ballot_count_witness :
    Chaincode.countBallots Chaincode.conservElection.Ballots Chaincode.conservElection.Candidates =
      Except.ok [⟨"A", 4⟩, ⟨"B", 0⟩] ∧
    Chaincode.sumVotes [⟨"A", 4⟩, ⟨"B", 0⟩] =
      Chaincode.sumVotes Chaincode.conservElection.Candidates +
        Chaincode.conservElection.Ballots.length :=
  ⟨rfl, countBallots_adds_ballot_count Chaincode.conservElection.Ballots
    Chaincode.conservElection.Candidates [⟨"A", 4⟩, ⟨"B", 0⟩] rfl⟩

/-- C6.  With zero total votes the Go chaincode's quota is 0, so every
candidate trivially meets it: on `zeroVoteElection` (two candidates, one
seat, no ballots) `CountVotes` terminates normally — no distinguished
result — with `seatsRemaining` driven from 1 down to −1, i.e. two
zero-vote candidates treated as elected instead of zero seats filled. -/
theorem zero_votes_elects_all_candidates :
    Chaincode.quota Chaincode.zeroVoteElection.TotalVotes Chaincode.zeroVoteElection.Seats = 0 ∧
    Chaincode.runCount 2 Chaincode.zeroVoteElection =
      some (Except.ok ([⟨"A", 0⟩, ⟨"B", 0⟩], -1)) ∧
    Chaincode.zeroVoteElection.Seats = 1 :=
  ⟨rfl, rfl, rfl⟩

/-- C7 counterexample: in `splitElection` (one seat, quota 2, two candidates
with 2 first-preference votes each) a single pass decrements
`seatsRemaining` once per candidate at quota with no re-check, ending at
−1: two candidates are elected for one configured seat. -/
theorem elected_can_exceed_seat_count :
    Chaincode.runCount 2 Chaincode.splitElection =
      some (Except.ok ([⟨"A", 0⟩, ⟨"B", 0⟩], -1)) ∧
    Chaincode.splitElection.Seats = 1 ∧
    (Chaincode.splitElection.Seats : Int) <
      (Chaincode.splitElection.Seats : Int) - (-1) :=
  ⟨rfl, rfl, by decide⟩

/-- C7 as amended: the number of elected candidates never decreases — the
seat-allocation pass only ever decrements `seatsRemaining` — but it is not
bounded by the seat count. -/
theorem seatsRemaining_never_increases (q : Nat) (cands : List Chaincode.Candidate) (s : Int) :
    (Chaincode.electPhase q cands s).2 ≤ s := by
  rw [Chaincode.electPhase_snd]
  have : (0 : Int) ≤ (cands.countP fun c => decide (q ≤ c.VoteCount) : Int) := Int.ofNat_nonneg _
  omega

/-- C8 counterexample: with a roster of 3 candidates and a fresh voter,
`STVContract.vote` rejects the duplicate-free in-roster list `[0, 1]` that
the claimed validation accepts, and accepts the duplicated list
`[0, 0, 1]` that the claimed validation rejects. -/
theorem vote_validation_differs_from_spec :
    ¬ STVContract.specRejects 3 [0, 1] ∧
    STVContract.vote (fun _ => ⟨false, []⟩) 0 "v" 3 [0, 1] =
      Except.error "Invalid vote format" ∧
    STVContract.specRejects 3 [0, 0, 1] ∧
    STVContract.vote (fun _ => ⟨false, []⟩) 0 "v" 3 [0, 0, 1] =
      Except.ok (fun a => if a = "v" then ⟨true, [0, 0, 1]⟩ else ⟨false, []⟩, 1) :=
  ⟨by decide, rfl, by decide, rfl⟩

/-- C8 as amended: for a voter that has not voted yet, `vote` accepts a raw
preference list exactly when its length equals the candidate count; no
roster-membership or duplicate check is performed. -/
theorem vote_ok_iff_length_matches (voters : String → STVContract.Voter)
    (totalVotes : Nat) (sender : String) (numCandidates : Nat) (preferences : List Nat)
    (h : (voters sender).voted = false) :
    (∃ r, STVContract.vote voters totalVotes sender numCandidates preferences = Except.ok r) ↔
      preferences.length = numCandidates := by
  unfold STVContract.vote
  rw [h]
  by_cases hl : preferences.length = numCandidates
  · simp [hl]
  · simp [hl]

/-- Witness for C8's amended statement with a fresh voter and a roster of 2. -/
theorem vote_ok_iff_length_matches_witness :
    ((fun _ => (⟨false, []⟩ : STVContract.Voter)) "v").voted = false ∧
    ((∃ r, STVContract.vote (fun _ => ⟨false, []⟩) 0 "v" 2 [0, 1] = Except.ok r) ↔
      ([0, 1] : List Nat).length = 2) :=
  ⟨rfl, vote_ok_iff_length_matches (fun _ => ⟨false, []⟩) 0 "v" 2 [0, 1] rfl⟩

/-- C9 counterexample: two candidates tied at total 1; when the Go map
enumeration presents "B" before "A", the result keeps "B" before "A" —
non-increasing in totals, but not in ascending identifier order on the
tie, and not strictly descending. -/
theorem tie_order_not_ascending_identifier :
    Tallying.calcularTotais [["A"], ["B"]] ["A", "B"] [1] ["B", "A"] =
      [⟨"B", 1⟩, ⟨"A", 1⟩] ∧
    ¬ Tallying.ordemDaSpec [⟨"B", 1⟩, ⟨"A", 1⟩] := by
  refine ⟨by decide, ?_⟩
  simp [Tallying.ordemDaSpec, List.pairwise_cons]
  decide

/-- C9 as amended: the flat tally's result is sorted by non-increasing vote
total for every input; the relative order of tied candidates is whatever
the (unspecified) map enumeration and unstable sort produce, not an
identifier order. -/
theorem calcularTotais_sorted_by_descending_votes (votos : List (List String))
    (candidatasValidas : List String) (pesos : List Int) (ordem : List String) :
    List.Sorted Tallying.porVotos
      (Tallying.calcularTotais votos candidatasValidas pesos ordem) :=
  List.sorted_insertionSort Tallying.porVotos _

/-- C10.  `CastVote` rejects exactly the voters already holding a ballot in
the stored election — returning an error, so the ledger write is skipped
and the stored election is unchanged — and otherwise appends exactly one
ballot for the voter and increments `TotalVotes` by one. -/
theorem CastVote_appends_unless_duplicate (e : Chaincode.Election)
    (voter : String) (prefs : List Nat) :
    Chaincode.CastVote e voter prefs =
      if ∃ b ∈ e.Ballots, b.Voter = voter then
        Except.error "voter has already voted"
      else
        Except.ok { e with
          Ballots := e.Ballots ++ [{ Voter := voter, Preferences := prefs, Voted := true }],
          TotalVotes := e.TotalVotes + 1 } := by
  by_cases h : ∃ b ∈ e.Ballots, b.Voter = voter
  · simp [Chaincode.CastVote, Chaincode.hasVoted_iff, h]
  · simp [Chaincode.CastVote, Chaincode.hasVoted_iff, h]
